import Mathlib

/-!
Verification development for the `web_scraping_projects` repository.

The definitions below are a shallow embedding of the shared utility layer
(`src/common/utils.py`, `src/common/validators.py`), the retrying HTTP
fetcher of the news aggregator (`src/news/aggregator.py`) and the
pagination/deduplication loop of the e-commerce tracker
(`src/ecommerce/tracker.py`).  Python strings are modeled as Lean
`String`/`List Char` restricted to their ASCII behavior where Python's
regex/str classes are Unicode-aware; machine text operations (slicing with
negative indices, `str.split()`, `str.strip()`) are modeled explicitly.
-/

namespace Scrape

/-- ASCII whitespace as recognized by Python's `str.split`, `str.strip` and
the regex class `\s` (restricted to ASCII). -/
def isPySpace (c : Char) : Bool :=
  c = ' ' || c = '\t' || c = '\n' || c = '\r' || c = '\x0b' || c = '\x0c'

/-- ASCII lowercase letter test, `[a-z]`. -/
def isLowerAlpha (c : Char) : Bool :=
  97 ≤ c.toNat && c.toNat ≤ 122

/-- ASCII uppercase letter test, `[A-Z]`. -/
def isUpperAlpha (c : Char) : Bool :=
  65 ≤ c.toNat && c.toNat ≤ 90

/-- ASCII digit test, `[0-9]`. -/
def isDigitA (c : Char) : Bool :=
  48 ≤ c.toNat && c.toNat ≤ 57

/-- ASCII lowercase letter or digit, `[a-z0-9]`. -/
def isLowerAlnum (c : Char) : Bool :=
  isLowerAlpha c || isDigitA c

/-- Python `str.lower` on one character (ASCII fragment). -/
def pyToLower (c : Char) : Char :=
  if isUpperAlpha c then Char.ofNat (c.toNat + 32) else c

/-- Base-10 value of a digit list: the integer formed by concatenating the
digit characters in order (model of Python `int` on an all-digit string). -/
def digitsVal (l : List Char) : Nat :=
  l.foldl (fun a c => 10 * a + (c.toNat - 48)) 0

/-- `clean_price` from `src/common/utils.py`: keep only digit characters and
parse the remainder as an integer; `None` for a falsy input or when no
digit remains. -/
def clean_price (price_raw : Option String) : Option Nat :=
  match price_raw with
  | none => none
  | some s =>
    if s = "" then none
    else
      let clean := s.toList.filter Char.isDigit
      if clean = [] then none else some (digitsVal clean)

/-- Python slice `l[:k]` where the stop index `k` may be negative
(`l[:-n]` drops the last `n` elements, clamped at the empty list). -/
def pySliceTo (l : List Char) (k : Int) : List Char :=
  if 0 ≤ k then l.take k.toNat else l.take (l.length - (-k).toNat)

/-- `truncate_text` from `src/common/utils.py`:
`text` unchanged when it already fits, otherwise
`text[: max_length - len(suffix)] + suffix`. -/
def truncate_text (text : String) (max_length : Nat) (suffix : String) : String :=
  if text.length ≤ max_length then text
  else ⟨pySliceTo text.toList ((max_length : Int) - (suffix.length : Int)) ++ suffix.toList⟩

/-- Word character of the regex class `\w` (ASCII fragment):
letter, digit or underscore. -/
def isWordChar (c : Char) : Bool :=
  isUpperAlpha c || isLowerAlpha c || isDigitA c || c = '_'

/-- The character class `[\w\s-]` kept by the first substitution of
`sanitize_filename`. -/
def keepFn (c : Char) : Bool :=
  isWordChar c || isPySpace c || c = '-'

/-- Underscore test used by `str.strip("_")`. -/
def isUnd (c : Char) : Bool :=
  c = '_'

/-- Separator of the regex class `[-\s]`: hyphen or whitespace. -/
def isSepChar (c : Char) : Bool :=
  c = '-' || isPySpace c

/-- Model of `re.sub(r"[-\s]+", "_", ...)`: every maximal run of separators
becomes a single underscore.  The flag records whether the previous
character belonged to a separator run. -/
def collapseSepAux : Bool → List Char → List Char
  | _, [] => []
  | inRun, c :: cs =>
    if isSepChar c then
      if inRun then collapseSepAux true cs else '_' :: collapseSepAux true cs
    else c :: collapseSepAux false cs

/-- Collapse separator runs to single underscores (fresh run state). -/
def collapseSep (l : List Char) : List Char :=
  collapseSepAux false l

/-- Python `str.strip("_")`: drop underscores from both ends. -/
def stripUnd (l : List Char) : List Char :=
  ((l.dropWhile isUnd).reverse.dropWhile isUnd).reverse

/-- `sanitize_filename` from `src/common/utils.py`: lowercase, delete
characters outside `[\w\s-]`, collapse `[-\s]+` runs to `_`, truncate to
`max_length`, strip underscores at both ends. -/
def sanitize_filename (filename : String) (max_length : Nat) : String :=
  ⟨stripUnd ((collapseSep ((filename.toList.map pyToLower).filter keepFn)).take max_length)⟩

/-- Python `str.split()` (split on whitespace runs, no empty words),
accumulator-based. -/
def pySplitAux : List Char → List Char → List (List Char)
  | [], acc => if acc = [] then [] else [acc.reverse]
  | c :: cs, acc =>
    if isPySpace c then
      if acc = [] then pySplitAux cs [] else acc.reverse :: pySplitAux cs []
    else pySplitAux cs (c :: acc)

/-- Python `str.split()` on a character list. -/
def pySplit (l : List Char) : List (List Char) :=
  pySplitAux l []

/-- Python `" ".join(words)`. -/
def joinSpace (ws : List (List Char)) : List Char :=
  List.intercalate [' '] ws

/-- Python `str.strip()`: drop whitespace from both ends. -/
def pyStrip (l : List Char) : List Char :=
  ((l.dropWhile isPySpace).reverse.dropWhile isPySpace).reverse

/-- `sanitize_text` from `src/common/validators.py`: drop null bytes, drop
control characters except newline/tab, normalize whitespace via
`" ".join(text.split())`, and return the stripped text, or `None` when the
input is falsy or nothing printable remains. -/
def sanitize_text (text : Option String) : Option String :=
  match text with
  | none => none
  | some s =>
    if s = "" then none
    else
      let noNull := s.toList.filter (fun c => c ≠ '\x00')
      let noCtrl := noNull.filter (fun c => 32 ≤ c.toNat || c = '\n' || c = '\t')
      let normalized := joinSpace (pySplit noCtrl)
      let stripped := pyStrip normalized
      if stripped = [] then none else some ⟨stripped⟩

/-- Scheme character of `urllib.parse` after the leading letter:
letter, digit, `+`, `-` or `.`. -/
def isSchemeChar (c : Char) : Bool :=
  isUpperAlpha c || isLowerAlpha c || c.isDigit || c = '+' || c = '-' || c = '.'

/-- Split a character list at the first colon, returning the parts before
and after it. -/
def splitAtColon : List Char → Option (List Char × List Char)
  | [] => none
  | c :: cs =>
    if c = ':' then some ([], cs)
    else
      match splitAtColon cs with
      | some (a, b) => some (c :: a, b)
      | none => none

/-- Model of `urllib.parse.urlparse` restricted to the `scheme` and
`netloc` components: the scheme is the lowercased part before the first
colon when it is a nonempty run of scheme characters starting with a
letter; the netloc is what follows a leading `//` up to the first
`/`, `?` or `#`. -/
def urlSchemeNetloc (u : String) : String × String :=
  let l := u.toList
  let parts :=
    match splitAtColon l with
    | some (a, b) =>
      match a with
      | [] => (([] : List Char), l)
      | c :: cs =>
        if (isUpperAlpha c || isLowerAlpha c) && (c :: cs).all isSchemeChar then
          ((c :: cs).map pyToLower, b)
        else ([], l)
    | none => ([], l)
  let netloc :=
    match parts.2 with
    | '/' :: '/' :: t => t.takeWhile (fun c => c ≠ '/' && c ≠ '?' && c ≠ '#')
    | _ => []
  (⟨parts.1⟩, ⟨netloc⟩)

/-- `validate_url` from `src/common/validators.py`: truthy input whose
parse has both a scheme and a network location. -/
def validate_url (url : Option String) : Bool :=
  match url with
  | none => false
  | some u =>
    if u = "" then false
    else
      let sn := urlSchemeNetloc u
      sn.1 != "" && sn.2 != ""

/-- A record value as stored in the scraped-data dictionaries: a string,
an integer, or Python `None`. -/
inductive Val where
  | str (s : String)
  | intv (n : Int)
  | nil
deriving DecidableEq

/-- A scraped record: field name to value mapping (Python dict with
first-occurrence lookup). -/
abbrev Item := List (String × Val)

/-- Dictionary lookup: first value bound to the key. -/
def lookupKey (d : Item) (k : String) : Option Val :=
  match d with
  | [] => none
  | (k', v) :: rest => if k' = k then some v else lookupKey rest k

/-- Python `key in data`. -/
def hasKey (d : Item) (k : String) : Bool :=
  (lookupKey d k).isSome

/-- Truthiness of `data.get(key)`: missing keys and `None` are falsy, a
string is truthy when nonempty, an integer when nonzero. -/
def valTruthy : Option Val → Bool
  | some (.str s) => s != ""
  | some (.intv n) => n != 0
  | some .nil => false
  | none => false

/-- `validate_url(data.get(key))`: any non-string value is rejected
(falsy or raising inside the guarded `urlparse` call). -/
def valUrlOk : Option Val → Bool
  | some (.str s) => validate_url (some s)
  | _ => false

/-- `validate_product_data` from `src/common/validators.py`: the keys
`platform`, `title`, `url` are present, `title` is truthy, and the `url`
value passes `validate_url`. -/
def validate_product_data (d : Item) : Bool :=
  (hasKey d "platform" && hasKey d "title" && hasKey d "url") &&
  valTruthy (lookupKey d "title") &&
  valUrlOk (lookupKey d "url")

/-- `validate_news_data` from `src/common/validators.py`: the keys
`source`, `headline`, `link` are present, `headline` is truthy, and the
`link` value passes `validate_url`. -/
def validate_news_data (d : Item) : Bool :=
  (hasKey d "source" && hasKey d "headline" && hasKey d "link") &&
  valTruthy (lookupKey d "headline") &&
  valUrlOk (lookupKey d "link")

/-- Sanitization of one value as done inside `filter_valid_data`: string
values are replaced by `sanitize_text(value)` (which may be `None`),
everything else is untouched. -/
def sanitizeVal : Val → Val
  | .str s =>
    match sanitize_text (some s) with
    | some t => .str t
    | none => .nil
  | v => v

/-- In-place sanitization of every string field of a record. -/
def sanitizeItem (d : Item) : Item :=
  d.map (fun kv => (kv.1, sanitizeVal kv.2))

/-- `filter_valid_data` from `src/common/validators.py`: sanitize every
string field of every record, then keep exactly the records the validator
accepts. -/
def filter_valid_data (l : List Item) (f : Item → Bool) : List Item :=
  (l.map sanitizeItem).filter f

/-- Character allowed in the host portion of the `is_valid_url` regex
(after lowercasing): lowercase letter, digit, hyphen or dot. -/
def isHostChar (c : Char) : Bool :=
  isLowerAlnum c || c = '-' || c = '.'

/-- One domain label of the regex `[A-Z0-9](?:[A-Z0-9-]{0,61}[A-Z0-9])?`
(after lowercasing): alphanumeric first and last character, alphanumeric
or hyphen in between, at most 63 characters. -/
def isLabelSeg (l : List Char) : Bool :=
  match l with
  | [] => false
  | c :: rest =>
    isLowerAlnum c &&
    (match rest with
     | [] => true
     | _ =>
       rest.length ≤ 62 &&
       rest.getLast?.any isLowerAlnum &&
       rest.dropLast.all (fun x => isLowerAlnum x || x = '-'))

/-- Top-level domain of the regex `[A-Z]{2,6}` (after lowercasing). -/
def isTld (l : List Char) : Bool :=
  2 ≤ l.length && l.length ≤ 6 && l.all isLowerAlpha

/-- Split a character list on `.`, keeping empty segments. -/
def splitDotsAux : List Char → List Char → List (List Char)
  | [], acc => [acc.reverse]
  | c :: cs, acc =>
    if c = '.' then acc.reverse :: splitDotsAux cs [] else splitDotsAux cs (c :: acc)

/-- Split a character list on `.`. -/
def splitDots (l : List Char) : List (List Char) :=
  splitDotsAux l []

/-- Domain alternative `(?:label\.)+[A-Z]{2,6}\.?` of the host regex,
decided on the dot-separated segments: at least one label, a TLD, and at
most one trailing empty segment from an optional final dot. -/
def isDomainSegs (segs : List (List Char)) : Bool :=
  let core := if segs.getLast? = some ([] : List Char) then segs.dropLast else segs
  2 ≤ core.length &&
  core.dropLast.all isLabelSeg &&
  core.getLast?.any isTld

/-- IP segment `\d{1,3}`. -/
def isIpSeg (l : List Char) : Bool :=
  1 ≤ l.length && l.length ≤ 3 && l.all Char.isDigit

/-- IP alternative `\d{1,3}\.\d{1,3}\.\d{1,3}\.\d{1,3}` of the host regex. -/
def isIpSegs (segs : List (List Char)) : Bool :=
  segs.length = 4 && segs.all isIpSeg

/-- The host group of the `is_valid_url` regex: domain, `localhost`,
or dotted-decimal IP. -/
def isHostPart (host : List Char) : Bool :=
  isDomainSegs (splitDots host) || host = "localhost".toList || isIpSegs (splitDots host)

/-- Python regex `$`: end of input, or just before one final newline. -/
def endAnchorOk : List Char → Bool
  | [] => true
  | ['\n'] => true
  | _ => false

/-- Tail of the path alternative `[/?]\S+$`: a nonempty run of non-space
characters, optionally followed by the final newline `$` tolerates. -/
def pathTailOk (t : List Char) : Bool :=
  if t.getLast? = some '\n' then
    t.dropLast != ([] : List Char) && t.dropLast.all (fun c => !isPySpace c)
  else
    t != ([] : List Char) && t.all (fun c => !isPySpace c)

/-- The trailing group `(?:/?|[/?]\S+)$` of the `is_valid_url` regex. -/
def pathOk (p : List Char) : Bool :=
  match p with
  | [] => true
  | ['\n'] => true
  | '/' :: t => endAnchorOk t || pathTailOk t
  | '?' :: t => pathTailOk t
  | _ => false

/-- Everything after `https?://` in the `is_valid_url` regex: the maximal
run of host characters must form a valid host, then an optional `:port`,
then the path group.  (The regex cannot end the host early: no host
character may start the port or path alternatives.) -/
def afterSchemeOk (r : List Char) : Bool :=
  let host := r.takeWhile isHostChar
  let rest := r.dropWhile isHostChar
  isHostPart host &&
  (match rest with
   | ':' :: t =>
     (t.takeWhile Char.isDigit) != ([] : List Char) && pathOk (t.dropWhile Char.isDigit)
   | _ => pathOk rest)

/-- The mandatory `^https?://` of the `is_valid_url` regex, on the
lowercased input. -/
def stripHttpScheme (l : List Char) : Option (List Char) :=
  if l.take 8 = "https://".toList then some (l.drop 8)
  else if l.take 7 = "http://".toList then some (l.drop 7)
  else none

/-- `is_valid_url` from `src/common/utils.py`: falsy input is rejected,
otherwise the anchored case-insensitive regex
`^https?://(domain|localhost|ip)(?::\d+)?(?:/?|[/?]\S+)$` must match. -/
def is_valid_url (url : Option String) : Bool :=
  match url with
  | none => false
  | some u =>
    if u = "" then false
    else
      match stripHttpScheme (u.toList.map pyToLower) with
      | some r => afterSchemeOk r
      | none => false

/-- A matched document node: its text content and its attribute list. -/
structure Node where
  rawText : String
  attrs : List (String × String)
deriving DecidableEq

/-- Outcome of `element.select_one(selector)`: the call may raise, return
`None`, or return a node. -/
inductive SelResult where
  | raises
  | missing
  | found (n : Node)
deriving DecidableEq

/-- A parsed element, abstracted as the behavior of `select_one` on each
selector string. -/
abbrev Elem := String → SelResult

/-- `node.get_text(strip=strip)`: the node text, stripped when requested. -/
def nodeText (n : Node) (strip : Bool) : String :=
  if strip then ⟨pyStrip n.rawText.toList⟩ else n.rawText

/-- `node.has_attr(a)` / `node[a]` combined: the attribute value when
present. -/
def nodeAttr (n : Node) (a : String) : Option String :=
  (n.attrs.find? (fun kv => kv.1 == a)).map (fun kv => kv.2)

/-- `extract_text` from `src/common/utils.py`: try the selectors in order;
a raising or non-matching selector is skipped, as is a match whose
(possibly stripped) text is falsy; the first truthy text is returned,
else the default. -/
def extract_text (element : Elem) (selectors : List String) (dflt : Option String)
    (strip : Bool) : Option String :=
  match selectors with
  | [] => dflt
  | sel :: rest =>
    match element sel with
    | .found n =>
      let t := nodeText n strip
      if t != "" then some t else extract_text element rest dflt strip
    | _ => extract_text element rest dflt strip

/-- `extract_attr` from `src/common/utils.py`: try the selectors in order;
a raising or non-matching selector is skipped, as is a match without the
attribute or with a falsy value; the first truthy attribute value is
returned, else the default. -/
def extract_attr (element : Elem) (selectors : List String) (attr : String)
    (dflt : Option String) : Option String :=
  match selectors with
  | [] => dflt
  | sel :: rest =>
    match element sel with
    | .found n =>
      match nodeAttr n attr with
      | some v => if v != "" then some v else extract_attr element rest attr dflt
      | none => extract_attr element rest attr dflt
    | _ => extract_attr element rest attr dflt

/-- Specification-side view of one selector for `extract_text`: the truthy
text it would produce, if any. -/
def textHit (element : Elem) (strip : Bool) (sel : String) : Option String :=
  match element sel with
  | .found n =>
    let t := nodeText n strip
    if t != "" then some t else none
  | _ => none

/-- Specification-side view of one selector for `extract_attr`: the truthy
attribute value it would produce, if any. -/
def attrHit (element : Elem) (attr : String) (sel : String) : Option String :=
  match element sel with
  | .found n =>
    match nodeAttr n attr with
    | some v => if v != "" then some v else none
    | none => none
  | _ => none

/-- First `some` of a list of options. -/
def firstSome : List (Option α) → Option α
  | [] => none
  | o :: rest =>
    match o with
    | some v => some v
    | none => firstSome rest

/-- One HTTP attempt as the world presents it: a response with a status
code, or a raised transport error. -/
inductive Attempt where
  | response (status : Nat)
  | timeoutErr
  | transportErr
deriving DecidableEq

/-- The `httpx` errors relevant to `_fetch_with_retry`:
`HTTPStatusError` raised by `raise_for_status` on a 4xx/5xx response, a
timeout, or another transport error. -/
inductive FetchErr where
  | statusError (status : Nat)
  | timeoutExc
  | transportExc
deriving DecidableEq

/-- One call of the decorated body: `client.get` may raise, and
`raise_for_status` raises `HTTPStatusError` on any status of 400 and
above. -/
def attemptOutcome : Attempt → Except FetchErr Nat
  | .response s => if 400 ≤ s then .error (.statusError s) else .ok s
  | .timeoutErr => .error .timeoutExc
  | .transportErr => .error .transportExc

/-- `isinstance(e, httpx.HTTPError)`: per the httpx class hierarchy,
`HTTPStatusError`, `TimeoutException` and every other transport error all
derive from `httpx.HTTPError`. -/
def isHttpError : FetchErr → Bool
  | _ => true

/-- `isinstance(e, httpx.TimeoutException)`. -/
def isTimeoutException : FetchErr → Bool
  | .timeoutExc => true
  | _ => false

/-- The tenacity predicate of `_fetch_with_retry` in
`src/news/aggregator.py`:
`retry_if_exception_type((httpx.HTTPError, httpx.TimeoutException))`. -/
def retryPredicate (e : FetchErr) : Bool :=
  isHttpError e || isTimeoutException e

/-- The tenacity loop with `r` retries still allowed after the current
attempt `i`; returns the final outcome (`reraise=True` surfaces the last
error) and the number of attempts made. -/
def retryFrom (att : Nat → Attempt) (i : Nat) : Nat → Except FetchErr Nat × Nat
  | 0 => (attemptOutcome (att i), 1)
  | r + 1 =>
    match attemptOutcome (att i) with
    | .ok v => (.ok v, 1)
    | .error e =>
      if retryPredicate e then
        let res := retryFrom att (i + 1) r
        (res.1, res.2 + 1)
      else (.error e, 1)

/-- `_fetch_with_retry` from `src/news/aggregator.py` under
`stop_after_attempt(maxRetries)`: at most `maxRetries` attempts in
total. -/
def fetch_with_retry (att : Nat → Attempt) (maxRetries : Nat) :
    Except FetchErr Nat × Nat :=
  retryFrom att 0 (maxRetries - 1)

/-- Does the second list start with the first? -/
def startsList : List Char → List Char → Bool
  | [], _ => true
  | _ :: _, [] => false
  | p :: ps, c :: cs => p = c && startsList ps cs

/-- Python substring test `pat in l` on character lists. -/
def containsList (pat : List Char) : List Char → Bool
  | [] => startsList pat []
  | c :: cs => startsList pat (c :: cs) || containsList pat cs

/-- The `Product` record of `src/ecommerce/tracker.py` (timestamp
omitted; it plays no role in the verified claims). -/
structure Product where
  platform : String
  title : String
  price : Option Nat
  rating : Option String
  reviews : Option String
  url : String
  image_url : Option String
  availability : String
deriving DecidableEq

/-- The mutable per-run state of `EcommerceScraper`: collected result
records and the seen-URL set (modeled as a list queried by membership). -/
structure ScrapeState where
  results : List Product
  seen : List String
deriving DecidableEq

/-- `EcommerceScraper.__init__`: empty results, empty seen-URL set. -/
def initState : ScrapeState :=
  ⟨[], []⟩

/-- Python `s.split(' ')[0]`: the part before the first space. -/
def firstSpaceTok (s : String) : String :=
  ⟨s.toList.takeWhile (fun c => c ≠ ' ')⟩

/-- Amazon title selector chain from `scrape_amazon`. -/
def amazonTitleSels : List String :=
  ["h2 a span", "h2", "span.a-text-normal"]

/-- Amazon product-link selector chain from `scrape_amazon`. -/
def amazonLinkSels : List String :=
  ["h2 a", "a.a-link-normal"]

/-- Amazon price selector chain from `scrape_amazon`. -/
def amazonPriceSels : List String :=
  ["span.a-price-whole", "span.a-offscreen"]

/-- Amazon rating selector chain from `scrape_amazon`. -/
def amazonRatingSels : List String :=
  ["span.a-icon-alt", "i.a-icon-star-small"]

/-- Amazon review-count selector chain from `scrape_amazon`. -/
def amazonReviewSels : List String :=
  ["span.a-size-base.s-underline-text", "span.a-size-base"]

/-- Title of one item container, as `scrape_amazon` extracts it. -/
def itemTitle (item : Elem) : Option String :=
  extract_text item amazonTitleSels none true

/-- Link suffix of one item container, as `scrape_amazon` extracts it. -/
def itemLink (item : Elem) : Option String :=
  extract_attr item amazonLinkSels "href" none

/-- The composite dedup key stored for a collected product. -/
def productKey (p : Product) : String :=
  "Amazon_" ++ p.url

/-- The `Product` built for one accepted item container in
`scrape_amazon`: the remaining field extractions of the loop body
(price, rating, review count, image, availability). -/
def mkAmazonProduct (join : String → String) (item : Elem)
    (title linkSuffix : String) : Product :=
  let price := clean_price (extract_text item amazonPriceSels none true)
  let rating := (extract_text item amazonRatingSels none true).map firstSpaceTok
  let reviews := extract_text item amazonReviewSels none true
  let img := extract_attr item ["img.s-image"] "src" none
  let availText := (extract_text item ["span.a-color-price"] none true).getD ""
  let avail0 :=
    match price with
    | some n => if n ≠ 0 then "In Stock" else "Out of Stock"
    | none => "Out of Stock"
  let avail :=
    if containsList ("Currently unavailable".toList) availText.toList then "Out of Stock"
    else avail0
  ⟨"Amazon", title, price, rating, reviews, join linkSuffix, img, avail⟩

/-- The per-item body of the `scrape_amazon` container loop
(`src/ecommerce/tracker.py`): skip items without a title or link, skip
already-seen composite keys, otherwise extract the remaining fields and
append the product while recording its key.  `join` stands for
`urljoin(base_url, ·)`. -/
def processItem (join : String → String) (st : ScrapeState) (item : Elem) : ScrapeState :=
  match itemTitle item with
  | none => st
  | some title =>
    match itemLink item with
    | none => st
    | some linkSuffix =>
      let key := "Amazon_" ++ join linkSuffix
      if key ∈ st.seen then st
      else
        { results := st.results ++ [mkAmazonProduct join item title linkSuffix],
          seen := key :: st.seen }

/-- What one fetched page presents to the loop: a failed navigation, a
CAPTCHA interstitial, or a parsed page with its item containers and the
optional href of the next-page control. -/
inductive PageResult where
  | fetchFail
  | captcha
  | page (items : List Elem) (next : Option String)

/-- The pagination loop of `scrape_amazon`
(`for page_num in range(1, self.max_pages + 1)`): stop on failed
navigation, CAPTCHA, a page with zero containers, or a missing next-page
control; otherwise process the containers and follow the resolved next
URL.  Returns the final state and the number of pages fetched. -/
def scrapeLoop (world : String → PageResult) (join : String → String) :
    Nat → String → ScrapeState → ScrapeState × Nat
  | 0, _, st => (st, 0)
  | fuel + 1, url, st =>
    match world url with
    | .fetchFail => (st, 1)
    | .captcha => (st, 1)
    | .page items next =>
      if items.isEmpty then (st, 1)
      else
        let st2 := items.foldl (processItem join) st
        match next with
        | none => (st2, 1)
        | some href =>
          let rec_ := scrapeLoop world join fuel (join href) st2
          (rec_.1, rec_.2 + 1)

/-- `scrape_amazon` as a run of the pagination loop from the initial
scraper state, bounded by the constructor-supplied page count. -/
def scrape_amazon (world : String → PageResult) (join : String → String)
    (searchUrl : String) (maxPages : Nat) : ScrapeState × Nat :=
  scrapeLoop world join maxPages searchUrl initState

/-- A world where the first request yields a 404 response and every later
request a 200 response. -/
def att404 : Nat → Attempt :=
  fun i => if i = 0 then .response 404 else .response 200

/-- An element whose only match (selector `"a"`) carries an attribute
value that is all whitespace. -/
def attrWsElem : Elem :=
  fun sel => if sel = "a" then .found ⟨"", [("href", " ")]⟩ else .missing

/-- An element whose selector `"a"` yields a node with padded text, and
whose selector `"b"` raises. -/
def textDemoElem : Elem :=
  fun sel =>
    if sel = "a" then .found ⟨" Title ", [("href", "/x")]⟩
    else if sel = "b" then .raises
    else .missing

/-- An item container whose title is `"Alpha"` and whose link resolves to
`/dup`; used to exercise deduplication. -/
def dupElem : Elem :=
  fun sel =>
    if sel = "h2 a span" then .found ⟨"Alpha", []⟩
    else if sel = "h2 a" then .found ⟨"", [("href", "/dup")]⟩
    else .missing

/-- First demo item container (title `"Alpha"`, link `/a`). -/
def demoItemA : Elem :=
  fun sel =>
    if sel = "h2 a span" then .found ⟨"Alpha", []⟩
    else if sel = "h2 a" then .found ⟨"", [("href", "/a")]⟩
    else .missing

/-- Second demo item container (title `"Beta"`, link `/b`). -/
def demoItemB : Elem :=
  fun sel =>
    if sel = "h2 a span" then .found ⟨"Beta", []⟩
    else if sel = "h2 a" then .found ⟨"", [("href", "/b")]⟩
    else .missing

/-- A three-page world: pages `p1` and `p2` carry one item each and a
next-page link; page `p3` has zero item containers. -/
def demoWorld : String → PageResult :=
  fun u =>
    if u = "p1" then .page [demoItemA] (some "p2")
    else if u = "p2" then .page [demoItemB] (some "p3")
    else if u = "p3" then .page [] none
    else .fetchFail

/-- The record collected from `demoItemA`. -/
def demoProdA : Product :=
  ⟨"Amazon", "Alpha", none, none, none, "/a", none, "Out of Stock"⟩

/-- The record collected from `demoItemB`. -/
def demoProdB : Product :=
  ⟨"Amazon", "Beta", none, none, none, "/b", none, "Out of Stock"⟩

/-- A product record whose `platform` field is present but empty. -/
def prodEmptyPlatform : Item :=
  [("platform", .str ""), ("title", .str "Widget"), ("url", .str "http://example.com/p")]

/-- A product record whose `platform` field is whitespace only. -/
def prodWsPlatform : Item :=
  [("platform", .str "   \t"), ("title", .str "Widget"), ("url", .str "http://example.com/p")]

/-- A fully well-formed product record. -/
def prodOkItem : Item :=
  [("platform", .str "Amazon"), ("title", .str "Widget"), ("url", .str "http://example.com/p")]

example : clean_price (some "₹1,234") = some 1234 := by decide
example : clean_price (some "$99.99") = some 9999 := by decide
example : clean_price (some "Price: 1,500") = some 1500 := by decide
example : clean_price (some "abc") = none := by decide
example : truncate_text "Very long text here" 10 "..." = "Very lo..." := by decide
example : truncate_text "abc" 2 "..." = "ab..." := by decide
example : sanitize_filename "Test File: Name/Path" 200 = "test_file_namepath" := by decide
example : sanitize_text (some "  a \x00 b\x01c  ") = some "a bc" := by decide
example : sanitize_text (some "   ") = none := by decide
example : is_valid_url (some "https://example.com") = true := by decide
example : is_valid_url (some "HTTP://Example.COM/path?q=1") = true := by decide
example : is_valid_url (some "http://localhost:8080/") = true := by decide
example : is_valid_url (some "http://192.168.0.1") = true := by decide
example : is_valid_url (some "not a url") = false := by decide
example : is_valid_url (some "ftp://host/x") = false := by decide
example : is_valid_url (some "http://example") = false := by decide
example : is_valid_url (some "https://sub.example.co.in/a/b?x= y") = false := by decide
example : validate_url (some "http://example.com/p") = true := by decide
example : validate_url (some "ftp://host/x") = true := by decide
example : validate_url (some "not a url") = false := by decide
example : validate_url (some "http://") = false := by decide
example : validate_product_data
    [("platform", .str "Amazon"), ("title", .str "W"), ("url", .str "http://e.com/p")] = true := by
  decide
example : validate_product_data
    [("platform", .str "Amazon"), ("title", .str ""), ("url", .str "http://e.com/p")] = false := by
  decide
example : filter_valid_data
    [[("platform", .str "Amazon"), ("title", .str "  "), ("url", .str "http://e.com/p")]]
    validate_product_data = [] := by decide

/-- Claim C1: for every string input, `clean_price` returns the integer
formed by concatenating the input's digit characters in order (so
`clean_price("₹1,234") = 1234` and `clean_price("$99.99") = 9999`), and
returns `None` when the input is `None`, empty, or contains no digit
characters. -/
theorem C1_clean_price :
    clean_price none = none ∧
    clean_price (some "") = none ∧
    (∀ s : String, s.toList.filter Char.isDigit = [] → clean_price (some s) = none) ∧
    (∀ s : String, s.toList.filter Char.isDigit ≠ [] →
      clean_price (some s) = some (digitsVal (s.toList.filter Char.isDigit))) ∧
    clean_price (some "₹1,234") = some 1234 ∧
    clean_price (some "$99.99") = some 9999 := by
  refine ⟨rfl, by decide, ?_, ?_, by decide, by decide⟩
  · intro s h
    by_cases hs : s = ""
    · subst hs; decide
    · simp only [clean_price]
      rw [if_neg hs, if_pos h]
  · intro s h
    have hs : s ≠ "" := by
      intro he
      subst he
      exact h (by decide)
    simp only [clean_price]
    rw [if_neg hs, if_neg h]

/-- Claim C1 witness: the digit-free case and the general case of
`C1_clean_price` at concrete inputs. -/
theorem C1_clean_price_witness :
    clean_price (some "abc") = none ∧
    clean_price (some "a1b2") =
      some (digitsVal (("a1b2" : String).toList.filter Char.isDigit)) :=
  ⟨C1_clean_price.2.2.1 "abc" (by decide), C1_clean_price.2.2.2.1 "a1b2" (by decide)⟩

/-- Claim C2 counterexample: with `max_length = 2` and the default suffix
`"..."`, Python's negative slice makes `truncate_text "abc" 2 "..."`
return `"ab..."`, whose length 5 exceeds `max_length = 2` — the claimed
unconditional length bound fails. -/
theorem C2_counterexample :
    truncate_text "abc" 2 "..." = "ab..." ∧
    ¬(truncate_text "abc" 2 "...").length ≤ 2 := by
  decide

/-- Claim C2 (amended): whenever the suffix is no longer than
`max_length`, the result of `truncate_text` has length at most
`max_length`; and whenever the input's length is at most `max_length`,
the result equals the input unchanged. -/
theorem C2_truncate_text (text : String) (max_length : Nat) (suffix : String) :
    (suffix.length ≤ max_length →
      (truncate_text text max_length suffix).length ≤ max_length) ∧
    (text.length ≤ max_length → truncate_text text max_length suffix = text) := by
  constructor
  · intro hs
    by_cases h : text.length ≤ max_length
    · simp [truncate_text, h]
    · have hk : (0 : Int) ≤ (max_length : Int) - (suffix.length : Int) := by omega
      have hkn : ((max_length : Int) - (suffix.length : Int)).toNat
          = max_length - suffix.length := by omega
      have hlen : (pySliceTo text.toList ((max_length : Int) - (suffix.length : Int))).length
          ≤ max_length - suffix.length := by
        rw [pySliceTo, if_pos hk, hkn]
        simp only [List.length_take]
        exact Nat.min_le_left _ _
      simp only [truncate_text, if_neg h]
      show (pySliceTo text.toList ((max_length : Int) - (suffix.length : Int))
        ++ suffix.toList).length ≤ max_length
      rw [List.length_append]
      have hsl : suffix.toList.length = suffix.length := rfl
      omega
  · intro h
    simp [truncate_text, h]

/-- Claim C2 witness: both parts of `C2_truncate_text` at concrete
inputs. -/
theorem C2_truncate_text_witness :
    (truncate_text "hello world" 9 "...").length ≤ 9 ∧
    truncate_text "abc" 5 "..." = "abc" :=
  ⟨(C2_truncate_text "hello world" 9 "...").1 (by decide),
   (C2_truncate_text "abc" 5 "...").2 (by decide)⟩

theorem retryPredicate_true (e : FetchErr) : retryPredicate e = true := by
  cases e <;> rfl

theorem retryFrom_count_le (att : Nat → Attempt) :
    ∀ r i, (retryFrom att i r).2 ≤ r + 1 := by
  intro r
  induction r with
  | zero => intro i; simp [retryFrom]
  | succ r ih =>
    intro i
    simp only [retryFrom]
    rcases h : attemptOutcome (att i) with e | v
    · simp only [retryPredicate_true e, if_true]
      have := ih (i + 1)
      omega
    · simp

theorem retryFrom_count_pos (att : Nat → Attempt) :
    ∀ r i, 1 ≤ (retryFrom att i r).2 := by
  intro r
  induction r with
  | zero => intro i; simp [retryFrom]
  | succ r ih =>
    intro i
    simp only [retryFrom]
    rcases h : attemptOutcome (att i) with e | v
    · simp only [retryPredicate_true e, if_true]
      omega
    · simp

theorem retryFrom_all_fail (att : Nat → Attempt) (errs : Nat → FetchErr)
    (h : ∀ j, attemptOutcome (att j) = .error (errs j)) :
    ∀ r i, retryFrom att i r = (.error (errs (i + r)), r + 1) := by
  intro r
  induction r with
  | zero => intro i; simp [retryFrom, h i]
  | succ r ih =>
    intro i
    simp only [retryFrom]
    rw [h i]
    simp only [retryPredicate_true, if_true]
    rw [ih (i + 1)]
    have hidx : i + 1 + r = i + (r + 1) := by omega
    rw [hidx]

/-- Claim C4 counterexample: a 404 response — a non-transient 4xx error —
is followed by a second attempt, which succeeds: the fetcher does retry
4xx failures instead of re-raising them immediately. -/
theorem C4_counterexample :
    attemptOutcome (att404 0) = .error (.statusError 404) ∧
    fetch_with_retry att404 3 = (.ok 200, 2) ∧
    fetch_with_retry att404 3 ≠ (.error (.statusError 404), 1) := by
  refine ⟨rfl, rfl, ?_⟩
  have h2 : fetch_with_retry att404 3 = (.ok 200, 2) := rfl
  rw [h2]
  intro h
  injection h with ha hb
  exact Except.noConfusion ha

/-- Claim C4 (amended): the plain HTTP fetcher retries on every raised
httpx error — timeouts and 5xx, but also 4xx status errors, because
`HTTPStatusError` derives from `httpx.HTTPError`, which the tenacity
predicate lists — up to the fixed maximum attempt count, and then
re-raises the last error; after a first-attempt failure of any kind it
always makes a second attempt when the attempt budget allows one. -/
theorem C4_fetch_with_retry :
    (∀ (att : Nat → Attempt) (maxRetries : Nat), 1 ≤ maxRetries →
      (fetch_with_retry att maxRetries).2 ≤ maxRetries) ∧
    (∀ (att : Nat → Attempt) (errs : Nat → FetchErr) (maxRetries : Nat),
      1 ≤ maxRetries → (∀ j, attemptOutcome (att j) = .error (errs j)) →
      fetch_with_retry att maxRetries = (.error (errs (maxRetries - 1)), maxRetries)) ∧
    (∀ (att : Nat → Attempt) (e : FetchErr) (maxRetries : Nat), 2 ≤ maxRetries →
      attemptOutcome (att 0) = .error e → 2 ≤ (fetch_with_retry att maxRetries).2) ∧
    (∀ e : FetchErr, retryPredicate e = true) := by
  refine ⟨?_, ?_, ?_, retryPredicate_true⟩
  · intro att maxRetries h1
    have := retryFrom_count_le att (maxRetries - 1) 0
    unfold fetch_with_retry
    omega
  · intro att errs maxRetries h1 hall
    unfold fetch_with_retry
    rw [retryFrom_all_fail att errs hall (maxRetries - 1) 0]
    have hz : 0 + (maxRetries - 1) = maxRetries - 1 := by omega
    have ho : maxRetries - 1 + 1 = maxRetries := by omega
    rw [hz, ho]
  · intro att e maxRetries h2 h0
    obtain ⟨r, hr⟩ : ∃ r, maxRetries - 1 = r + 1 := ⟨maxRetries - 2, by omega⟩
    unfold fetch_with_retry
    rw [hr]
    simp only [retryFrom]
    rw [h0]
    simp only [retryPredicate_true, if_true]
    show 2 ≤ (retryFrom att (0 + 1) r).2 + 1
    have := retryFrom_count_pos att r (0 + 1)
    omega

/-- Claim C4 witness: `C4_fetch_with_retry` at concrete worlds — a run of
timeouts exhausts the three attempts and re-raises the last timeout, and
the 404-then-200 world makes at least two attempts. -/
theorem C4_fetch_with_retry_witness :
    (fetch_with_retry (fun _ => .timeoutErr) 3).2 ≤ 3 ∧
    fetch_with_retry (fun _ => .timeoutErr) 3 = (.error .timeoutExc, 3) ∧
    2 ≤ (fetch_with_retry att404 5).2 :=
  ⟨C4_fetch_with_retry.1 (fun _ => .timeoutErr) 3 (by decide),
   C4_fetch_with_retry.2.1 (fun _ => .timeoutErr) (fun _ => .timeoutExc) 3
     (by decide) (fun _ => rfl),
   C4_fetch_with_retry.2.2.1 att404 (.statusError 404) 5 (by decide) rfl⟩

theorem firstSome_append_none {α : Type} (l1 l2 : List (Option α))
    (h : ∀ o ∈ l1, o = none) : firstSome (l1 ++ l2) = firstSome l2 := by
  induction l1 with
  | nil => rfl
  | cons o rest ih =>
    have ho := h o (by simp)
    subst ho
    simp only [List.cons_append, firstSome]
    exact ih (fun o ho => h o (by simp [ho]))

theorem firstSome_all_none {α : Type} (l : List (Option α))
    (h : ∀ o ∈ l, o = none) : firstSome l = none := by
  have := firstSome_append_none l [] h
  simpa using this

theorem extract_text_eq_firstSome (e : Elem) (strip : Bool) :
    ∀ sels : List String,
      extract_text e sels none strip = firstSome (sels.map (textHit e strip)) := by
  intro sels
  induction sels with
  | nil => rfl
  | cons sel rest ih =>
    simp only [List.map_cons, extract_text, textHit]
    rcases h : e sel with _ | _ | n
    · simp [firstSome, h, ih]
    · simp [firstSome, h, ih]
    · by_cases ht : (nodeText n strip != "") = true
      · simp [firstSome, ht]
      · simp [firstSome, ht, ih]

theorem extract_attr_eq_firstSome (e : Elem) (attr : String) :
    ∀ sels : List String,
      extract_attr e sels attr none = firstSome (sels.map (attrHit e attr)) := by
  intro sels
  induction sels with
  | nil => rfl
  | cons sel rest ih =>
    simp only [List.map_cons, extract_attr, attrHit]
    rcases h : e sel with _ | _ | n
    · simp [firstSome, h, ih]
    · simp [firstSome, h, ih]
    · rcases ha : nodeAttr n attr with _ | v
      · simp [firstSome, ha, ih]
      · by_cases hv : (v != "") = true
        · simp [firstSome, ha, hv]
        · simp [firstSome, ha, hv, ih]

/-- Claim C5 counterexample: the first selector of `attrWsElem` yields the
attribute value `" "`, which is empty after trimming, yet `extract_attr`
returns it instead of `None`: attribute values are tested for truthiness
without trimming, so the claimed "non-empty after trimming" rule fails
for `extract_attr`. -/
theorem C5_counterexample :
    extract_attr attrWsElem ["a"] "href" none = some " " ∧
    pyStrip " ".toList = [] := by
  decide

/-- Claim C5 (amended): `extract_text` (with stripping) returns the result
of the first selector whose stripped text is non-empty, and `extract_attr`
the first selector whose attribute value is non-empty (untrimmed), in
both cases at any position of that selector; failing, raising, or
empty-yielding selectors are skipped, and when every selector fails the
result is `None` without an error. -/
theorem C5_extractors :
    (∀ (e : Elem) (strip : Bool) (sels : List String),
      extract_text e sels none strip = firstSome (sels.map (textHit e strip))) ∧
    (∀ (e : Elem) (attr : String) (sels : List String),
      extract_attr e sels attr none = firstSome (sels.map (attrHit e attr))) ∧
    (∀ (e : Elem) (pre post : List String) (sel t : String),
      (∀ x ∈ pre, textHit e true x = none) → textHit e true sel = some t →
      extract_text e (pre ++ sel :: post) none true = some t) ∧
    (∀ (e : Elem) (pre post : List String) (sel attr v : String),
      (∀ x ∈ pre, attrHit e attr x = none) → attrHit e attr sel = some v →
      extract_attr e (pre ++ sel :: post) attr none = some v) ∧
    (∀ (e : Elem) (sels : List String),
      (∀ x ∈ sels, textHit e true x = none) → extract_text e sels none true = none) ∧
    (∀ (e : Elem) (attr : String) (sels : List String),
      (∀ x ∈ sels, attrHit e attr x = none) → extract_attr e sels attr none = none) := by
  refine ⟨extract_text_eq_firstSome, extract_attr_eq_firstSome, ?_, ?_, ?_, ?_⟩
  · intro e pre post sel t hpre hsel
    rw [extract_text_eq_firstSome, List.map_append,
      firstSome_append_none _ _ (by simpa using hpre)]
    simp [firstSome, hsel]
  · intro e pre post sel attr v hpre hsel
    rw [extract_attr_eq_firstSome, List.map_append,
      firstSome_append_none _ _ (by simpa using hpre)]
    simp [firstSome, hsel]
  · intro e sels hall
    rw [extract_text_eq_firstSome]
    exact firstSome_all_none _ (by simpa using hall)
  · intro e attr sels hall
    rw [extract_attr_eq_firstSome]
    exact firstSome_all_none _ (by simpa using hall)

/-- Claim C5 witness: the positional and all-fail parts of
`C5_extractors` at `textDemoElem` (second selector matches with padded
text; a raising selector is skipped) and at `attrWsElem`. -/
theorem C5_extractors_witness :
    extract_text textDemoElem (["b"] ++ "a" :: ["c"]) none true = some "Title" ∧
    extract_attr textDemoElem (["c"] ++ "a" :: []) "href" none = some "/x" ∧
    extract_text attrWsElem ["a", "b"] none true = none :=
  ⟨C5_extractors.2.2.1 textDemoElem ["b"] ["c"] "a" "Title" (by decide) (by decide),
   C5_extractors.2.2.2.1 textDemoElem ["c"] [] "a" "href" "/x" (by decide) (by decide),
   C5_extractors.2.2.2.2.1 attrWsElem ["a", "b"] (by decide)⟩

theorem lookupKey_sanitizeItem (d : Item) (k : String) :
    lookupKey (sanitizeItem d) k = (lookupKey d k).map sanitizeVal := by
  induction d with
  | nil => rfl
  | cons kv rest ih =>
    obtain ⟨k', v⟩ := kv
    by_cases hk : k' = k
    · simp [sanitizeItem, lookupKey, hk]
    · simp only [sanitizeItem, List.map_cons, lookupKey, hk, if_neg hk]
      simpa [sanitizeItem] using ih

theorem pySplitAux_all_space (l : List Char) (h : ∀ c ∈ l, isPySpace c = true) :
    pySplitAux l [] = [] := by
  induction l with
  | nil => rfl
  | cons c cs ih =>
    have hc := h c (by simp)
    simp only [pySplitAux, hc, if_true, if_pos rfl]
    exact ih (fun x hx => h x (by simp [hx]))

theorem sanitize_text_space (s : String)
    (h : ∀ c ∈ s.toList, isPySpace c = true ∨ c.toNat < 32) :
    sanitize_text (some s) = none := by
  by_cases hs : s = ""
  · subst hs; decide
  · simp only [sanitize_text, if_neg hs]
    have hall : ∀ c ∈ (s.toList.filter (fun c => c ≠ '\x00')).filter
        (fun c => 32 ≤ c.toNat || c = '\n' || c = '\t'), isPySpace c = true := by
      intro c hc
      have hmem := List.mem_of_mem_filter hc
      have hpred := List.of_mem_filter hc
      have horig := List.mem_of_mem_filter hmem
      rcases h c horig with hsp | hlt
      · exact hsp
      · simp only [Bool.or_eq_true, decide_eq_true_eq] at hpred
        rcases hpred with (h32 | hn) | ht
        · omega
        · subst hn; rfl
        · subst ht; rfl
    rw [pySplit, pySplitAux_all_space _ hall]
    rfl

theorem sanitize_text_ne_some_empty : ∀ t, sanitize_text t ≠ some "" := by
  intro t
  match t with
  | none => simp [sanitize_text]
  | some s =>
    simp only [sanitize_text]
    split_ifs with h1 h2
    · simp
    · simp
    · intro he
      apply h2
      have hd := congrArg String.data (Option.some.inj he)
      simpa using hd

/-- Claim C9 counterexample: the dropping consequence fails for the
presence-only required fields — a record whose required `platform`
field is only whitespace has that field sanitized to `None` by
`filter_valid_data`, yet `validate_product_data` still accepts it (it
checks only that the `platform` key is present) and the record is
persisted, not dropped. -/
theorem C9_counterexample :
    (∀ c ∈ ("   \t" : String).toList, isPySpace c = true ∨ c.toNat < 32) ∧
    sanitize_text (some "   \t") = none ∧
    lookupKey prodWsPlatform "platform" = some (.str "   \t") ∧
    filter_valid_data [prodWsPlatform] validate_product_data
      = [[("platform", Val.nil), ("title", Val.str "Widget"),
          ("url", Val.str "http://example.com/p")]] := by
  decide

/-- Claim C9 (amended): `sanitize_text` never returns an empty string —
inputs that are `None`, empty, or made only of whitespace, control
characters and null bytes yield `None`; consequently, after
`filter_valid_data`'s in-place sanitization, a whitespace-only field
becomes `None`, and when that field is one whose truthiness the
validator checks (`title` for products, `headline` for news) the record
is dropped — whereas the presence-only required fields
(`platform`/`source`) do not cause a drop. -/
theorem C9_sanitize_text :
    (∀ t, sanitize_text t ≠ some "") ∧
    sanitize_text none = none ∧
    sanitize_text (some "") = none ∧
    (∀ s : String, (∀ c ∈ s.toList, isPySpace c = true ∨ c.toNat < 32) →
      sanitize_text (some s) = none) ∧
    (∀ (s : String) (d : Item), (∀ c ∈ s.toList, isPySpace c = true ∨ c.toNat < 32) →
      lookupKey d "title" = some (.str s) →
      filter_valid_data [d] validate_product_data = []) := by
  refine ⟨sanitize_text_ne_some_empty, rfl, by decide, sanitize_text_space, ?_⟩
  intro s d hws hlk
  have hsan : sanitize_text (some s) = none := sanitize_text_space s hws
  have hl : lookupKey (sanitizeItem d) "title" = some Val.nil := by
    rw [lookupKey_sanitizeItem, hlk]
    simp [sanitizeVal, hsan]
  have hv : validate_product_data (sanitizeItem d) = false := by
    simp [validate_product_data, valTruthy, hl]
  simp [filter_valid_data, hv]

/-- Claim C9 witness: `C9_sanitize_text` at a whitespace/control-only
string and at a record whose title is three spaces and a tab. -/
theorem C9_sanitize_text_witness :
    sanitize_text (some " \t\x00\x01 ") = none ∧
    filter_valid_data
      [[("platform", Val.str "Amazon"), ("title", Val.str "   \t"),
        ("url", Val.str "http://example.com/p")]] validate_product_data = [] :=
  ⟨C9_sanitize_text.2.2.2.1 " \t\x00\x01 " (by decide),
   C9_sanitize_text.2.2.2.2 "   \t"
     [("platform", Val.str "Amazon"), ("title", Val.str "   \t"),
      ("url", Val.str "http://example.com/p")] (by decide) (by decide)⟩

/-- Claim C3 counterexample: a product record whose required `platform`
field is the empty string still passes `validate_product_data` and is
persisted by `filter_valid_data` (with its platform sanitized to `None`):
the validator checks presence of `platform` but not non-emptiness, so the
claimed "every required field non-empty" rule fails. -/
theorem C3_counterexample :
    validate_product_data prodEmptyPlatform = true ∧
    valTruthy (lookupKey prodEmptyPlatform "platform") = false ∧
    filter_valid_data [prodEmptyPlatform] validate_product_data
      = [[("platform", Val.nil), ("title", Val.str "Widget"),
          ("url", Val.str "http://example.com/p")]] := by
  decide

/-- Claim C3 (amended): the URL-bearing validators return `True` exactly
when the required keys are present, the `title`/`headline` field is
truthy, and the URL field parses with both a scheme and a network
location — the `platform`/`source` fields need only be present, not
non-empty — and `filter_valid_data` keeps exactly the sanitized records
the validator accepts. -/
theorem C3_validator :
    (∀ d : Item, validate_product_data d = true ↔
      (hasKey d "platform" = true ∧ hasKey d "title" = true ∧ hasKey d "url" = true ∧
       valTruthy (lookupKey d "title") = true ∧ valUrlOk (lookupKey d "url") = true)) ∧
    (∀ d : Item, validate_news_data d = true ↔
      (hasKey d "source" = true ∧ hasKey d "headline" = true ∧ hasKey d "link" = true ∧
       valTruthy (lookupKey d "headline") = true ∧ valUrlOk (lookupKey d "link") = true)) ∧
    (∀ (l : List Item) (f : Item → Bool) (r : Item), r ∈ filter_valid_data l f →
      f r = true ∧ ∃ d ∈ l, r = sanitizeItem d) := by
  refine ⟨?_, ?_, ?_⟩
  · intro d
    simp [validate_product_data, Bool.and_eq_true, and_assoc]
  · intro d
    simp [validate_news_data, Bool.and_eq_true, and_assoc]
  · intro l f r hr
    simp only [filter_valid_data, List.mem_filter, List.mem_map] at hr
    obtain ⟨⟨d, hd, hrd⟩, hf⟩ := hr
    exact ⟨hf, d, hd, hrd.symm⟩

/-- Claim C3 witness: the filtering part of `C3_validator` at a concrete
valid record. -/
theorem C3_validator_witness :
    validate_product_data (sanitizeItem prodOkItem) = true ∧
    ∃ d ∈ [prodOkItem], sanitizeItem prodOkItem = sanitizeItem d :=
  C3_validator.2.2 [prodOkItem] validate_product_data (sanitizeItem prodOkItem) (by decide)

/-- Claim C10: `validate_url` accepts any parse with a scheme and a
network location regardless of the scheme (e.g. `ftp://host/x`), while
`is_valid_url` accepts only `http`/`https` URLs; hence record validation
admits non-http links. -/
theorem C10_url_validators :
    validate_url (some "ftp://host/x") = true ∧
    is_valid_url (some "ftp://host/x") = false ∧
    is_valid_url (some "https://example.com") = true ∧
    (∀ s : String, is_valid_url (some s) = true →
      (s.toList.map pyToLower).take 7 = "http://".toList ∨
      (s.toList.map pyToLower).take 8 = "https://".toList) ∧
    validate_product_data
      [("platform", .str "X"), ("title", .str "T"), ("url", .str "ftp://host/x")] = true := by
  refine ⟨by decide, by decide, by decide, ?_, by decide⟩
  intro s h
  by_cases hs : s = ""
  · subst hs
    simp [is_valid_url] at h
  · simp only [is_valid_url, if_neg hs] at h
    by_cases h8 : (s.toList.map pyToLower).take 8 = "https://".toList
    · exact Or.inr h8
    · by_cases h7 : (s.toList.map pyToLower).take 7 = "http://".toList
      · exact Or.inl h7
      · rw [stripHttpScheme, if_neg h8, if_neg h7] at h
        exact absurd h (by simp)

/-- Claim C10 witness: the http/https-only part of `C10_url_validators`
at a concrete accepted URL. -/
theorem C10_url_validators_witness :
    ("https://example.com".toList.map pyToLower).take 7 = "http://".toList ∨
    ("https://example.com".toList.map pyToLower).take 8 = "https://".toList :=
  C10_url_validators.2.2.2.1 "https://example.com" (by decide)

theorem char_eq_of_toNat_eq {a b : Char} (h : a.toNat = b.toNat) : a = b :=
  Char.eq_of_val_eq (UInt32.eq_of_toBitVec_eq (BitVec.eq_of_toNat_eq h))

theorem char_eq_iff_toNat (a b : Char) : a = b ↔ a.toNat = b.toNat :=
  ⟨fun h => by rw [h], char_eq_of_toNat_eq⟩

theorem isPySpace_iff (c : Char) : isPySpace c = true ↔
    (c.toNat = 32 ∨ c.toNat = 9 ∨ c.toNat = 10 ∨ c.toNat = 13 ∨
     c.toNat = 11 ∨ c.toNat = 12) := by
  have e1 : (' ' : Char).toNat = 32 := rfl
  have e2 : ('\t' : Char).toNat = 9 := rfl
  have e3 : ('\n' : Char).toNat = 10 := rfl
  have e4 : ('\r' : Char).toNat = 13 := rfl
  have e5 : ('\x0b' : Char).toNat = 11 := rfl
  have e6 : ('\x0c' : Char).toNat = 12 := rfl
  simp [isPySpace, char_eq_iff_toNat, e1, e2, e3, e4, e5, e6, or_assoc]

theorem isSepChar_iff (c : Char) : isSepChar c = true ↔
    (c.toNat = 45 ∨ c.toNat = 32 ∨ c.toNat = 9 ∨ c.toNat = 10 ∨ c.toNat = 13 ∨
     c.toNat = 11 ∨ c.toNat = 12) := by
  have e0 : ('-' : Char).toNat = 45 := rfl
  simp [isSepChar, isPySpace_iff, char_eq_iff_toNat, e0, or_assoc]

theorem isUpperAlpha_iff (c : Char) : isUpperAlpha c = true ↔
    (65 ≤ c.toNat ∧ c.toNat ≤ 90) := by
  simp [isUpperAlpha]

theorem isLowerAlpha_iff (c : Char) : isLowerAlpha c = true ↔
    (97 ≤ c.toNat ∧ c.toNat ≤ 122) := by
  simp [isLowerAlpha]

theorem isDigitA_iff (c : Char) : isDigitA c = true ↔
    (48 ≤ c.toNat ∧ c.toNat ≤ 57) := by
  simp [isDigitA]

theorem isLowerAlnum_iff (c : Char) : isLowerAlnum c = true ↔
    ((97 ≤ c.toNat ∧ c.toNat ≤ 122) ∨ (48 ≤ c.toNat ∧ c.toNat ≤ 57)) := by
  simp [isLowerAlnum, isLowerAlpha_iff, isDigitA_iff]

theorem isWordChar_iff (c : Char) : isWordChar c = true ↔
    ((65 ≤ c.toNat ∧ c.toNat ≤ 90) ∨ (97 ≤ c.toNat ∧ c.toNat ≤ 122) ∨
     (48 ≤ c.toNat ∧ c.toNat ≤ 57) ∨ c.toNat = 95) := by
  have e0 : ('_' : Char).toNat = 95 := rfl
  simp [isWordChar, isUpperAlpha_iff, isLowerAlpha_iff, isDigitA_iff,
    char_eq_iff_toNat, e0, or_assoc]

theorem keepFn_iff (c : Char) : keepFn c = true ↔
    ((65 ≤ c.toNat ∧ c.toNat ≤ 90) ∨ (97 ≤ c.toNat ∧ c.toNat ≤ 122) ∨
     (48 ≤ c.toNat ∧ c.toNat ≤ 57) ∨ c.toNat = 95 ∨
     c.toNat = 32 ∨ c.toNat = 9 ∨ c.toNat = 10 ∨ c.toNat = 13 ∨
     c.toNat = 11 ∨ c.toNat = 12 ∨ c.toNat = 45) := by
  have e0 : ('-' : Char).toNat = 45 := rfl
  simp only [keepFn, Bool.or_eq_true, isWordChar_iff, isPySpace_iff,
    char_eq_iff_toNat, e0, or_assoc, decide_eq_true_eq]

theorem toNat_pyToLower_upper (c : Char) (h : isUpperAlpha c = true) :
    (pyToLower c).toNat = c.toNat + 32 := by
  have hb : 65 ≤ c.toNat ∧ c.toNat ≤ 90 := (isUpperAlpha_iff c).mp h
  rw [pyToLower, if_pos h]
  unfold Char.ofNat
  rw [dif_pos (Or.inl (by omega : c.toNat + 32 < 55296))]
  rfl

theorem isUpperAlpha_pyToLower (c : Char) : isUpperAlpha (pyToLower c) = false := by
  cases hu : isUpperAlpha c with
  | false =>
    have hid : pyToLower c = c := by simp [pyToLower, hu]
    rw [hid]
    exact hu
  | true =>
    have hb := (isUpperAlpha_iff c).mp hu
    rw [Bool.eq_false_iff, Ne, isUpperAlpha_iff, toNat_pyToLower_upper c hu]
    omega

theorem outP_facts (c : Char) (h : isLowerAlnum c = true ∨ c = '_') :
    isUpperAlpha c = false ∧ isSepChar c = false ∧ keepFn c = true ∧ pyToLower c = c := by
  have hn : (97 ≤ c.toNat ∧ c.toNat ≤ 122) ∨ (48 ≤ c.toNat ∧ c.toNat ≤ 57) ∨ c.toNat = 95 := by
    rcases h with h | h
    · rcases (isLowerAlnum_iff c).mp h with h' | h'
      · exact Or.inl h'
      · exact Or.inr (Or.inl h')
    · subst h
      exact Or.inr (Or.inr rfl)
  have hu : isUpperAlpha c = false := by
    rw [Bool.eq_false_iff, Ne, isUpperAlpha_iff]
    omega
  refine ⟨hu, ?_, ?_, by simp [pyToLower, hu]⟩
  · rw [Bool.eq_false_iff, Ne, isSepChar_iff]
    omega
  · rw [keepFn_iff]
    omega

theorem outP_of_keep_not_sep (c : Char) (hk : keepFn c = true) (hs : isSepChar c = false)
    (hu : isUpperAlpha c = false) : isLowerAlnum c = true ∨ c = '_' := by
  have hkP := (keepFn_iff c).mp hk
  have hsP : ¬(c.toNat = 45 ∨ c.toNat = 32 ∨ c.toNat = 9 ∨ c.toNat = 10 ∨ c.toNat = 13 ∨
      c.toNat = 11 ∨ c.toNat = 12) := by
    rw [← isSepChar_iff]
    simp [hs]
  have huP : ¬(65 ≤ c.toNat ∧ c.toNat ≤ 90) := by
    rw [← isUpperAlpha_iff]
    simp [hu]
  have hres : (97 ≤ c.toNat ∧ c.toNat ≤ 122) ∨ (48 ≤ c.toNat ∧ c.toNat ≤ 57) ∨
      c.toNat = 95 := by
    omega
  have e95 : ('_' : Char).toNat = 95 := rfl
  rcases hres with h | h | h
  · exact Or.inl ((isLowerAlnum_iff c).mpr (Or.inl h))
  · exact Or.inl ((isLowerAlnum_iff c).mpr (Or.inr h))
  · exact Or.inr (char_eq_of_toNat_eq (by rw [e95]; exact h))

theorem collapseSepAux_chars :
    ∀ l : List Char, (∀ a ∈ l, keepFn a = true ∧ isUpperAlpha a = false) →
    ∀ b, ∀ c ∈ collapseSepAux b l, isLowerAlnum c = true ∨ c = '_' := by
  intro l
  induction l with
  | nil =>
    intro _ b c hc
    simp [collapseSepAux] at hc
  | cons a rest ih =>
    intro h b c hc
    obtain ⟨hka, hua⟩ := h a (by simp)
    have htail : ∀ x ∈ rest, keepFn x = true ∧ isUpperAlpha x = false :=
      fun x hx => h x (by simp [hx])
    by_cases hsep : isSepChar a = true
    · cases b with
      | true =>
        simp only [collapseSepAux, hsep, if_true] at hc
        exact ih htail true c hc
      | false =>
        simp only [collapseSepAux, hsep, if_true] at hc
        rcases List.mem_cons.mp hc with hceq | hcm
        · exact Or.inr hceq
        · exact ih htail true c hcm
    · have hsep' : isSepChar a = false := by
        simpa using hsep
      simp only [collapseSepAux, hsep'] at hc
      rcases List.mem_cons.mp hc with hceq | hcm
      · subst hceq
        exact outP_of_keep_not_sep c hka hsep' hua
      · exact ih htail false c hcm

theorem collapseSepAux_id (l : List Char) (h : ∀ c ∈ l, isSepChar c = false) :
    collapseSepAux false l = l := by
  induction l with
  | nil => rfl
  | cons a rest ih =>
    have ha := h a (by simp)
    have hrest := ih (fun c hc => h c (by simp [hc]))
    simp [collapseSepAux, ha, hrest]

theorem map_self_of_id {l : List Char} {f : Char → Char} (h : ∀ c ∈ l, f c = c) :
    l.map f = l := by
  induction l with
  | nil => rfl
  | cons a rest ih =>
    rw [List.map_cons, h a (by simp), ih (fun c hc => h c (by simp [hc]))]

theorem dropWhile_head_false (p : Char → Bool) :
    ∀ (l : List Char) (c : Char) (t : List Char), l.dropWhile p = c :: t → p c = false := by
  intro l
  induction l with
  | nil =>
    intro c t h
    simp [List.dropWhile] at h
  | cons a rest ih =>
    intro c t h
    cases hp : p a with
    | false =>
      rw [List.dropWhile_cons_of_neg (by simp [hp])] at h
      obtain ⟨h1, _⟩ := List.cons.inj h
      rw [← h1]
      exact hp
    | true =>
      rw [List.dropWhile_cons_of_pos (by simp [hp])] at h
      exact ih c t h

theorem dropWhile_twice (p : Char → Bool) (l : List Char) :
    (l.dropWhile p).dropWhile p = l.dropWhile p := by
  induction l with
  | nil => rfl
  | cons a rest ih =>
    cases hp : p a with
    | false =>
      rw [List.dropWhile_cons_of_neg (by simp [hp]), List.dropWhile_cons_of_neg (by simp [hp])]
    | true =>
      rw [List.dropWhile_cons_of_pos (by simp [hp])]
      exact ih

theorem dropWhile_getLast?_eq (p : Char → Bool) (l : List Char)
    (h : l.dropWhile p ≠ []) : (l.dropWhile p).getLast? = l.getLast? := by
  conv_rhs => rw [← List.takeWhile_append_dropWhile p l]
  exact (List.getLast?_append_of_ne_nil _ h).symm

theorem dropWhile_reverse_dropWhile (p : Char → Bool) (l : List Char) :
    (((l.dropWhile p).reverse.dropWhile p).reverse).dropWhile p
      = ((l.dropWhile p).reverse.dropWhile p).reverse := by
  cases hc : ((l.dropWhile p).reverse.dropWhile p).reverse with
  | nil => rw [List.dropWhile_nil]
  | cons c t =>
    have hBne : (l.dropWhile p).reverse.dropWhile p ≠ [] := by
      intro hB
      rw [hB] at hc
      simp at hc
    have h1 : ((l.dropWhile p).reverse.dropWhile p).reverse.head? = some c := by
      rw [hc]
      rfl
    rw [List.head?_reverse] at h1
    rw [dropWhile_getLast?_eq p (l.dropWhile p).reverse hBne] at h1
    rw [List.getLast?_reverse] at h1
    cases hA : l.dropWhile p with
    | nil =>
      rw [hA] at h1
      simp at h1
    | cons a t' =>
      have hpa : p a = false := dropWhile_head_false p l a t' hA
      rw [hA] at h1
      simp only [List.head?_cons, Option.some.injEq] at h1
      have hpc : p c = false := by
        rw [← h1]
        exact hpa
      exact List.dropWhile_cons_of_neg (by simp [hpc])

theorem stripUnd_idem (l : List Char) : stripUnd (stripUnd l) = stripUnd l := by
  show (((((l.dropWhile isUnd).reverse.dropWhile isUnd).reverse).dropWhile
      isUnd).reverse.dropWhile isUnd).reverse
    = ((l.dropWhile isUnd).reverse.dropWhile isUnd).reverse
  rw [dropWhile_reverse_dropWhile isUnd l, List.reverse_reverse,
    dropWhile_twice isUnd (l.dropWhile isUnd).reverse]

theorem mem_of_mem_stripUnd {c : Char} {l : List Char} (h : c ∈ stripUnd l) : c ∈ l := by
  rw [stripUnd, List.mem_reverse] at h
  have h2 := List.dropWhile_subset isUnd h
  rw [List.mem_reverse] at h2
  exact List.dropWhile_subset isUnd h2

theorem stripUnd_length_le (l : List Char) : (stripUnd l).length ≤ l.length := by
  have h1 : ((l.dropWhile isUnd).reverse.dropWhile isUnd).length
      ≤ (l.dropWhile isUnd).reverse.length := (List.dropWhile_sublist _).length_le
  have h2 : (l.dropWhile isUnd).length ≤ l.length := (List.dropWhile_sublist _).length_le
  simp only [stripUnd, List.length_reverse]
  simp only [List.length_reverse] at h1
  omega

theorem sanitize_filename_toList (x : String) (m : Nat) :
    (sanitize_filename x m).toList
      = stripUnd ((collapseSep ((x.toList.map pyToLower).filter keepFn)).take m) := rfl

theorem sanitize_filename_chars (x : String) (m : Nat) :
    ∀ c ∈ (sanitize_filename x m).toList, isLowerAlnum c = true ∨ c = '_' := by
  intro c hc
  rw [sanitize_filename_toList] at hc
  have h2 := mem_of_mem_stripUnd hc
  have h3 := (List.take_sublist m _).subset h2
  refine collapseSepAux_chars _ ?_ false c h3
  intro a ha
  refine ⟨List.of_mem_filter ha, ?_⟩
  obtain ⟨b, _, hba⟩ := List.mem_map.mp (List.mem_of_mem_filter ha)
  rw [← hba]
  exact isUpperAlpha_pyToLower b

theorem sanitize_filename_length_le (x : String) (m : Nat) :
    (sanitize_filename x m).length ≤ m := by
  have h0 : (sanitize_filename x m).length
      = (stripUnd ((collapseSep ((x.toList.map pyToLower).filter keepFn)).take m)).length := rfl
  rw [h0]
  have h1 := stripUnd_length_le ((collapseSep ((x.toList.map pyToLower).filter keepFn)).take m)
  have h2 : ((collapseSep ((x.toList.map pyToLower).filter keepFn)).take m).length ≤ m := by
    rw [List.length_take]
    exact Nat.min_le_left _ _
  omega

theorem sanitize_filename_idem (x : String) (m : Nat) :
    sanitize_filename (sanitize_filename x m) m = sanitize_filename x m := by
  have hchars := sanitize_filename_chars x m
  have hmap : (sanitize_filename x m).toList.map pyToLower = (sanitize_filename x m).toList :=
    map_self_of_id (fun c hc => (outP_facts c (hchars c hc)).2.2.2)
  have hfilter : (sanitize_filename x m).toList.filter keepFn = (sanitize_filename x m).toList :=
    List.filter_eq_self.mpr (fun c hc => (outP_facts c (hchars c hc)).2.2.1)
  have hcollapse : collapseSep (sanitize_filename x m).toList
      = (sanitize_filename x m).toList :=
    collapseSepAux_id _ (fun c hc => (outP_facts c (hchars c hc)).2.1)
  have hlen : (sanitize_filename x m).toList.length ≤ m := sanitize_filename_length_le x m
  have htake : (sanitize_filename x m).toList.take m = (sanitize_filename x m).toList :=
    List.take_of_length_le hlen
  have hstrip : stripUnd (sanitize_filename x m).toList = (sanitize_filename x m).toList := by
    rw [sanitize_filename_toList, stripUnd_idem]
  show (⟨stripUnd ((collapseSep (((sanitize_filename x m).toList.map pyToLower).filter
      keepFn)).take m)⟩ : String) = sanitize_filename x m
  rw [hmap, hfilter, hcollapse, htake, hstrip]
  rfl

/-- Claim C7: for every input and `max_length`, the output of
`sanitize_filename` contains only `[a-z0-9_-]`-class characters (in fact
only `[a-z0-9_]`), has length at most `max_length`, and the function is
idempotent. -/
theorem C7_sanitize_filename (x : String) (max_length : Nat) :
    (∀ c ∈ (sanitize_filename x max_length).toList,
      isLowerAlnum c = true ∨ c = '_' ∨ c = '-') ∧
    (sanitize_filename x max_length).length ≤ max_length ∧
    sanitize_filename (sanitize_filename x max_length) max_length
      = sanitize_filename x max_length := by
  refine ⟨?_, sanitize_filename_length_le x max_length, sanitize_filename_idem x max_length⟩
  intro c hc
  rcases sanitize_filename_chars x max_length c hc with h | h
  · exact Or.inl h
  · exact Or.inr (Or.inl h)

/-- Claim C7 witness: `C7_sanitize_filename` at concrete inputs — a
character of the output is in the allowed class, the length bound holds
under truncation, and idempotence holds on a string with separators. -/
theorem C7_sanitize_filename_witness :
    (isLowerAlnum 't' = true ∨ 't' = '_' ∨ 't' = '-') ∧
    (sanitize_filename "Test File: Name/Path" 10).length ≤ 10 ∧
    sanitize_filename (sanitize_filename "A  B--C d_" 200) 200
      = sanitize_filename "A  B--C d_" 200 :=
  ⟨(C7_sanitize_filename "Test File: Name/Path" 200).1 't' (by decide),
   (C7_sanitize_filename "Test File: Name/Path" 10).2.1,
   (C7_sanitize_filename "A  B--C d_" 200).2.2⟩

/-- The dedup keys of the collected records. -/
def keyList (st : ScrapeState) : List String :=
  st.results.map productKey

/-- The seen-URL set mirrors the collected record keys. -/
def stInv (st : ScrapeState) : Prop :=
  ∀ k, k ∈ st.seen ↔ k ∈ keyList st

theorem processItem_cases (join : String → String) (st : ScrapeState) (item : Elem) :
    (processItem join st item = st ∧
      (itemTitle item = none ∨ itemLink item = none ∨
       ∃ lnk, itemLink item = some lnk ∧ ("Amazon_" ++ join lnk) ∈ st.seen)) ∨
    (∃ ttl lnk, itemTitle item = some ttl ∧ itemLink item = some lnk ∧
      ("Amazon_" ++ join lnk) ∉ st.seen ∧
      processItem join st item
        = ⟨st.results ++ [mkAmazonProduct join item ttl lnk],
           ("Amazon_" ++ join lnk) :: st.seen⟩) := by
  unfold processItem
  rcases h1 : itemTitle item with _ | ttl
  · exact Or.inl ⟨rfl, Or.inl rfl⟩
  · rcases h2 : itemLink item with _ | lnk
    · exact Or.inl ⟨rfl, Or.inr (Or.inl rfl)⟩
    · by_cases hk : ("Amazon_" ++ join lnk) ∈ st.seen
      · exact Or.inl ⟨by simp [hk], Or.inr (Or.inr ⟨lnk, rfl, hk⟩)⟩
      · exact Or.inr ⟨ttl, lnk, rfl, rfl, hk, by simp [hk]⟩

theorem productKey_mkAmazonProduct (join : String → String) (item : Elem)
    (ttl lnk : String) :
    productKey (mkAmazonProduct join item ttl lnk) = "Amazon_" ++ join lnk := rfl

theorem processItem_inv (join : String → String) (st : ScrapeState) (item : Elem)
    (h : stInv st) : stInv (processItem join st item) := by
  rcases processItem_cases join st item with ⟨he, _⟩ | ⟨ttl, lnk, h1, h2, hk, he⟩
  · rw [he]
    exact h
  · rw [he]
    intro k
    have hh := h k
    simp only [keyList, List.map_append, List.mem_append, List.map_cons, List.map_nil,
      List.mem_cons, productKey_mkAmazonProduct] at hh ⊢
    constructor
    · rintro (hke | hks)
      · simp [hke]
      · simp [hh.mp hks]
    · rintro (hkr | hke)
      · exact Or.inr (hh.mpr hkr)
      · simp at hke
        simp [hke]

theorem processItem_nodup (join : String → String) (st : ScrapeState) (item : Elem)
    (hinv : stInv st) (hnd : (keyList st).Nodup) :
    (keyList (processItem join st item)).Nodup := by
  rcases processItem_cases join st item with ⟨he, _⟩ | ⟨ttl, lnk, h1, h2, hk, he⟩
  · rw [he]
    exact hnd
  · rw [he]
    have hkk : ("Amazon_" ++ join lnk) ∉ keyList st := fun hc => hk ((hinv _).mpr hc)
    simp only [keyList, List.map_append, List.map_cons, List.map_nil,
      productKey_mkAmazonProduct] at hnd hkk ⊢
    rw [List.nodup_append]
    refine ⟨hnd, by simp, ?_⟩
    intro a ha
    simp only [List.mem_cons, List.not_mem_nil, or_false]
    intro hae
    exact hkk (hae ▸ ha)

theorem processItem_keys_mono (join : String → String) (st : ScrapeState) (item : Elem)
    (k : String) (h : k ∈ keyList st) : k ∈ keyList (processItem join st item) := by
  rcases processItem_cases join st item with ⟨he, _⟩ | ⟨ttl, lnk, h1, h2, hk, he⟩
  · rw [he]
    exact h
  · rw [he]
    simp only [keyList, List.map_append, List.mem_append]
    exact Or.inl h

theorem processItem_key_in (join : String → String) (st : ScrapeState) (item : Elem)
    (ttl lnk : String) (hinv : stInv st)
    (h1 : itemTitle item = some ttl) (h2 : itemLink item = some lnk) :
    ("Amazon_" ++ join lnk) ∈ keyList (processItem join st item) := by
  rcases processItem_cases join st item with ⟨he, hwhy⟩ | ⟨ttl', lnk', h1', h2', hk, he⟩
  · rcases hwhy with hno | hno | ⟨lnk2, hl2, hin⟩
    · rw [h1] at hno
      exact absurd hno (by simp)
    · rw [h2] at hno
      exact absurd hno (by simp)
    · rw [h2] at hl2
      have hl : lnk2 = lnk := (Option.some.inj hl2).symm
      rw [he]
      exact (hinv _).mp (hl ▸ hin)
  · rw [he]
    have : lnk' = lnk := by
      rw [h2] at h2'
      exact (Option.some.inj h2').symm
    simp only [keyList, List.map_append, List.mem_append, List.map_cons, List.map_nil,
      productKey_mkAmazonProduct, List.mem_cons]
    subst this
    simp

theorem foldl_inv (join : String → String) :
    ∀ (items : List Elem) (st : ScrapeState), stInv st →
      stInv (items.foldl (processItem join) st) := by
  intro items
  induction items with
  | nil => intro st h; exact h
  | cons a rest ih =>
    intro st h
    rw [List.foldl_cons]
    exact ih _ (processItem_inv join st a h)

theorem foldl_nodup (join : String → String) :
    ∀ (items : List Elem) (st : ScrapeState), stInv st → (keyList st).Nodup →
      (keyList (items.foldl (processItem join) st)).Nodup := by
  intro items
  induction items with
  | nil => intro st _ hnd; exact hnd
  | cons a rest ih =>
    intro st hinv hnd
    rw [List.foldl_cons]
    exact ih _ (processItem_inv join st a hinv) (processItem_nodup join st a hinv hnd)

theorem foldl_keys_mono (join : String → String) :
    ∀ (items : List Elem) (st : ScrapeState) (k : String), k ∈ keyList st →
      k ∈ keyList (items.foldl (processItem join) st) := by
  intro items
  induction items with
  | nil => intro st k h; exact h
  | cons a rest ih =>
    intro st k h
    rw [List.foldl_cons]
    exact ih _ k (processItem_keys_mono join st a k h)

theorem foldl_key_of_mem (join : String → String) :
    ∀ (items : List Elem) (st : ScrapeState), stInv st →
      ∀ item ∈ items, ∀ ttl lnk, itemTitle item = some ttl → itemLink item = some lnk →
        ("Amazon_" ++ join lnk) ∈ keyList (items.foldl (processItem join) st) := by
  intro items
  induction items with
  | nil =>
    intro st _ item hmem
    simp at hmem
  | cons a rest ih =>
    intro st hst item hmem ttl lnk h1 h2
    rw [List.foldl_cons]
    rcases List.mem_cons.mp hmem with heq | hmem'
    · subst heq
      exact foldl_keys_mono join rest _ _
        (processItem_key_in join st item ttl lnk hst h1 h2)
    · exact ih _ (processItem_inv join st a hst) item hmem' ttl lnk h1 h2

theorem processItem_seen_inv (join : String → String) (st : ScrapeState) (item : Elem)
    (h : ∀ p ∈ st.results, productKey p ∈ st.seen) :
    ∀ p ∈ (processItem join st item).results,
      productKey p ∈ (processItem join st item).seen := by
  rcases processItem_cases join st item with ⟨he, _⟩ | ⟨ttl, lnk, h1, h2, hk, he⟩
  · rw [he]
    exact h
  · rw [he]
    intro p hp
    simp only [List.mem_append, List.mem_singleton] at hp
    rcases hp with hp | hp
    · exact List.mem_cons_of_mem _ (h p hp)
    · subst hp
      exact List.mem_cons_self _ _

/-- Claim C6: within one run, any two item containers resolving to the
same composite dedup key (site tag + URL) contribute exactly one record:
the seen-URL set starts empty, each item-processing step maintains the
invariant that every collected record's key is in the seen set, the
collected keys are duplicate-free, and every container with a title and a
link has its key represented among the collected records. -/
theorem C6_dedup (join : String → String) (items : List Elem) :
    initState.seen = [] ∧
    (∀ (st : ScrapeState) (item : Elem),
      (∀ p ∈ st.results, productKey p ∈ st.seen) →
      ∀ p ∈ (processItem join st item).results,
        productKey p ∈ (processItem join st item).seen) ∧
    ((items.foldl (processItem join) initState).results.map productKey).Nodup ∧
    (∀ item ∈ items, ∀ ttl lnk, itemTitle item = some ttl → itemLink item = some lnk →
      ("Amazon_" ++ join lnk) ∈
        (items.foldl (processItem join) initState).results.map productKey) := by
  have hinv0 : stInv initState := by
    intro k
    simp [initState, keyList]
  refine ⟨rfl, fun st item => processItem_seen_inv join st item, ?_, ?_⟩
  · exact foldl_nodup join items initState hinv0 (by simp [initState, keyList])
  · intro item hmem ttl lnk h1 h2
    exact foldl_key_of_mem join items initState hinv0 item hmem ttl lnk h1 h2

/-- Claim C6 witness: `C6_dedup` on a run that sees the same container
twice — the collected keys are duplicate-free and the shared key appears
among them. -/
theorem C6_dedup_witness :
    (([dupElem, dupElem].foldl (processItem id) initState).results.map productKey).Nodup ∧
    ("Amazon_" ++ id "/dup") ∈
      (([dupElem, dupElem].foldl (processItem id) initState).results.map productKey) :=
  ⟨(C6_dedup id [dupElem, dupElem]).2.2.1,
   (C6_dedup id [dupElem, dupElem]).2.2.2 dupElem (List.mem_cons_self _ _) "Alpha" "/dup"
     (by decide) (by decide)⟩

theorem scrapeLoop_count_le (world : String → PageResult) (join : String → String) :
    ∀ (fuel : Nat) (url : String) (st : ScrapeState),
      (scrapeLoop world join fuel url st).2 ≤ fuel := by
  intro fuel
  induction fuel with
  | zero =>
    intro url st
    simp [scrapeLoop]
  | succ fuel ih =>
    intro url st
    rw [scrapeLoop]
    rcases world url with _ | _ | ⟨items, next⟩
    · simp
    · simp
    · by_cases hempty : items.isEmpty = true
      · simp [hempty]
      · simp only [hempty, Bool.false_eq_true, if_false]
        rcases next with _ | href
        · simp
        · show (scrapeLoop world join fuel (join href)
              (items.foldl (processItem join) st)).2 + 1 ≤ fuel + 1
          have := ih (join href) (items.foldl (processItem join) st)
          omega

theorem scrapeLoop_empty_page (world : String → PageResult) (join : String → String)
    (fuel : Nat) (url : String) (st : ScrapeState) (next : Option String)
    (h : world url = PageResult.page [] next) :
    scrapeLoop world join (fuel + 1) url st = (st, 1) := by
  rw [scrapeLoop, h]
  simp

/-- Claim C8: for every run, the pagination loop fetches at most the
constructor-supplied maximum number of pages, and a page with zero item
containers stops the loop at that page without error, keeping every
record collected earlier; in the three-page demo world the run fetches
three of the allowed five pages and keeps exactly the two records of
pages 1–2. -/
theorem C8_pagination (world : String → PageResult) (join : String → String) :
    (∀ (fuel : Nat) (url : String) (st : ScrapeState),
      (scrapeLoop world join fuel url st).2 ≤ fuel) ∧
    (∀ (maxPages : Nat) (searchUrl : String),
      (scrape_amazon world join searchUrl maxPages).2 ≤ maxPages) ∧
    (∀ (fuel : Nat) (url : String) (st : ScrapeState) (next : Option String),
      world url = PageResult.page [] next →
      scrapeLoop world join (fuel + 1) url st = (st, 1)) ∧
    scrape_amazon demoWorld id "p1" 5
      = ({ results := [demoProdA, demoProdB], seen := ["Amazon_/b", "Amazon_/a"] }, 3) := by
  refine ⟨scrapeLoop_count_le world join, ?_, scrapeLoop_empty_page world join, by decide⟩
  intro maxPages searchUrl
  exact scrapeLoop_count_le world join maxPages searchUrl initState

/-- Claim C8 witness: `C8_pagination` at the demo world — the empty page
`p3` ends the run immediately, and the page bound holds for the demo
run. -/
theorem C8_pagination_witness :
    scrapeLoop demoWorld id (4 + 1) "p3" initState = (initState, 1) ∧
    (scrape_amazon demoWorld id "p1" 5).2 ≤ 5 :=
  ⟨(C8_pagination demoWorld id).2.2.1 4 "p3" initState none rfl,
   (C8_pagination demoWorld id).2.1 5 "p1"⟩

end Scrape
